import Mathlib

/-!
Verification of the explanation pipeline of the `debug-cli` repository
(`debug_cli/ai/openai_client.py`, `debug_cli/ai/explanation_service.py`,
`debug_cli/models/explanation.py`, `debug_cli/models/command.py`).

The Python code is shallowly embedded as executable Lean definitions:

* Python `float` values are modelled exactly as fractions (`PyFloat`): every
  float the pipeline manipulates originates from a decimal literal, a JSON
  decimal numeral, or `float()` applied to such a numeral, so exact fractions
  with integer numerator and positive power-of-ten style denominators model
  all comparisons and equalities the code performs without rounding.
* Wall-clock instants (`datetime.now()`, `datetime.fromisoformat`) are
  modelled as integer seconds passed explicitly to the functions that read
  the clock in the source.
* A Python exception is modelled with `Except`: a function that can raise an
  exception to its caller returns `Except String α` and `.error msg` models
  an escaped exception carrying `str(e) = msg`.
* The network call inside `OpenAIClient.generate_explanation` is modelled by
  a `NetworkOutcome` value: either the textual reply or an exception message
  (transport error, timeout, malformed reply object all raise and carry a
  message).
-/

set_option maxRecDepth 100000

namespace DebugCli

/-- Exact model of a Python float: an integer numerator over a positive
denominator.  Every construction site in the embedding produces a positive
denominator (a power of ten or 1).  Comparisons are exact cross
multiplications, mirroring the exact ordered-field comparisons the Python
code performs on its float values. -/
structure PyFloat where
  num : Int
  den : Nat
  deriving DecidableEq, Repr

namespace PyFloat

/-- Exact less-or-equal comparison by cross multiplication. -/
def le (x y : PyFloat) : Bool :=
  decide (x.num * (y.den : Int) ≤ y.num * (x.den : Int))

/-- Exact strict comparison by cross multiplication. -/
def lt (x y : PyFloat) : Bool :=
  decide (x.num * (y.den : Int) < y.num * (x.den : Int))

/-- The float value of an integer. -/
def ofInt (n : Int) : PyFloat := ⟨n, 1⟩

/-- The rational value of a modelled float (for stating bounds). -/
def toRat (x : PyFloat) : ℚ := (x.num : ℚ) / (x.den : ℚ)

/-- The range check `ge=0.0, le=1.0` that pydantic runs on a confidence
field when a `FixSuggestion` or `Explanation` is constructed. -/
def inUnitRange (x : PyFloat) : Bool :=
  le ⟨0, 1⟩ x && le x ⟨1, 1⟩

end PyFloat

/-- Model of `debug_cli/models/command.py`, class `Command`. -/
structure Command where
  text : String
  timestamp : Int
  working_directory : Option String
  shell : Option String
  exit_code : Option Int
  deriving DecidableEq, Repr

/-- Model of `debug_cli/models/command.py`, class `CommandResult` (the spec name
`FailureRecord`). -/
structure CommandResult where
  command : Command
  stdout : String
  stderr : String
  exit_code : Int
  execution_time : Option PyFloat
  deriving DecidableEq, Repr

/-- Model of `debug_cli/models/explanation.py`, class `FixSuggestion`.  The pydantic
range validation on `confidence` is modelled at each construction site (see
`PyFloat.inUnitRange`); the record itself carries the raw field values. -/
structure FixSuggestion where
  description : String
  command : Option String
  explanation : String
  confidence : PyFloat
  deriving DecidableEq, Repr

/-- Model of `debug_cli/models/explanation.py`, class `Explanation`. -/
structure Explanation where
  summary : String
  detailed_explanation : String
  root_cause : String
  fix_suggestions : List FixSuggestion
  confidence : PyFloat
  related_errors : Option (List String)
  prevention_tips : Option (List String)
  deriving DecidableEq, Repr

/-- The Python builtin `max(xs, key=f)` on a nonempty list, given as head and
tail: it scans left to right and replaces the current maximum only when the
key of the new element is strictly greater, hence it returns the first
element achieving the maximal key. -/
def pyMaxBy (key : FixSuggestion → PyFloat) : FixSuggestion → List FixSuggestion → FixSuggestion
  | cur, [] => cur
  | cur, x :: xs => pyMaxBy key (if PyFloat.lt (key cur) (key x) then x else cur) xs

/-- Model of `Explanation.primary_fix`: `max(self.fix_suggestions, key=lambda x:
x.confidence)` guarded by an emptiness check. -/
def Explanation.primary_fix (e : Explanation) : Option FixSuggestion :=
  match e.fix_suggestions with
  | [] => none
  | x :: xs => some (pyMaxBy (fun f => f.confidence) x xs)

/-- Model of `Explanation.has_high_confidence`: `self.confidence >= 0.8`. -/
def Explanation.has_high_confidence (e : Explanation) : Bool :=
  PyFloat.le ⟨8, 10⟩ e.confidence

/-- Model of `OpenAIClient._create_fallback_explanation`: the fixed-shape fallback
`Explanation`.  The `command_result` argument is accepted and ignored,
exactly as in the source. -/
def create_fallback_explanation (_command_result : CommandResult)
    (error_or_content : String) : Explanation :=
  { summary := "Unable to generate detailed analysis"
    detailed_explanation := "Raw AI response: " ++ error_or_content
    root_cause := "Analysis failed due to response parsing error"
    fix_suggestions :=
      [{ description := "Check the command syntax and try again"
         command := none
         explanation := "The command may have syntax errors or missing dependencies"
         confidence := ⟨3, 10⟩ }]
    confidence := ⟨2, 10⟩
    related_errors := some ["Command parsing error", "AI service unavailable"]
    prevention_tips :=
      some ["Verify command syntax", "Check dependencies", "Try running with verbose flags"] }

/-- Truthiness of an optional Python string: `None` and `""` are falsy. -/
def pyTruthy : Option String → Bool
  | none => false
  | some s => s ≠ ""

/-- Model of `OpenAIClient.__init__`: `self.api_key = api_key or os.getenv("OPENAI_API_KEY")`
followed by `if not self.api_key: raise ValueError(...)`.  The environment
variable is passed explicitly; `.error` models the raised `ValueError` and
`.ok` carries the stored key. -/
def initClient (api_key : Option String) (env_api_key : Option String) :
    Except String String :=
  match (if pyTruthy api_key then api_key else env_api_key) with
  | none => Except.error "OpenAI API key is required. Set OPENAI_API_KEY environment variable."
  | some s =>
    if s = "" then
      Except.error "OpenAI API key is required. Set OPENAI_API_KEY environment variable."
    else Except.ok s

/-- JSON values as produced by the Python `json.loads`.  Numbers are carried
as exact `PyFloat` fractions; the Python `int`/`float` distinction is erased
because the pipeline immediately coerces every numeric field with `float()`
and never observes the difference. -/
inductive Json where
  | null : Json
  | bool (b : Bool) : Json
  | num (x : PyFloat) : Json
  | str (s : String) : Json
  | arr (elems : List Json) : Json
  | obj (fields : List (String × Json)) : Json

/-- Lookup in a decoded JSON object, i.e. `dict.get(key)` on the dict built
by `json.loads`, where a later duplicate key overwrites an earlier one. -/
def objGet : List (String × Json) → String → Option Json
  | [], _ => none
  | (k, v) :: rest, key =>
    match objGet rest key with
    | some v2 => some v2
    | none => if k = key then some v else none

/-- The opening brace character. -/
def lbraceChar : Char := Char.ofNat 123

/-- The closing brace character. -/
def rbraceChar : Char := Char.ofNat 125

/-- Skip JSON whitespace (space, tab, newline, carriage return). -/
def skipWs : List Char → List Char
  | [] => []
  | c :: rest =>
    if c = ' ' || c = Char.ofNat 9 || c = Char.ofNat 10 || c = Char.ofNat 13 then
      skipWs rest
    else c :: rest

/-- Numeric value of a hexadecimal digit. -/
def hexVal (c : Char) : Option Nat :=
  if c.isDigit then some (c.toNat - 48)
  else if 'a' ≤ c ∧ c ≤ 'f' then some (c.toNat - 87)
  else if 'A' ≤ c ∧ c ≤ 'F' then some (c.toNat - 55)
  else none

/-- Single-character JSON string escapes. -/
def escChar : Char → Option Char
  | '"' => some '"'
  | '\\' => some '\\'
  | '/' => some '/'
  | 'b' => some (Char.ofNat 8)
  | 'f' => some (Char.ofNat 12)
  | 'n' => some (Char.ofNat 10)
  | 'r' => some (Char.ofNat 13)
  | 't' => some (Char.ofNat 9)
  | _ => none

/-- Body of a JSON string after the opening quote: returns the decoded
characters and the input remaining after the closing quote.  A `\uXXXX`
escape outside the valid scalar range degrades to the `Char.ofNat` default,
which no claim exercises. -/
def parseStringBody : List Char → Option (List Char × List Char)
  | [] => none
  | '"' :: rest => some ([], rest)
  | '\\' :: 'u' :: h1 :: h2 :: h3 :: h4 :: rest =>
    match hexVal h1, hexVal h2, hexVal h3, hexVal h4 with
    | some a, some b, some c, some d =>
      match parseStringBody rest with
      | some (cs, r) => some (Char.ofNat (((a * 16 + b) * 16 + c) * 16 + d) :: cs, r)
      | none => none
    | _, _, _, _ => none
  | '\\' :: c :: rest =>
    match escChar c with
    | some ec =>
      match parseStringBody rest with
      | some (cs, r) => some (ec :: cs, r)
      | none => none
    | none => none
  | c :: rest =>
    if c.toNat < 32 then none
    else
      match parseStringBody rest with
      | some (cs, r) => some (c :: cs, r)
      | none => none

/-- Take the longest prefix of decimal digits. -/
def takeDigits : List Char → List Char × List Char
  | [] => ([], [])
  | c :: rest =>
    if c.isDigit then
      let (ds, r) := takeDigits rest
      (c :: ds, r)
    else ([], c :: rest)

/-- Natural number denoted by a list of decimal digits. -/
def natOfDigits (ds : List Char) : Nat :=
  ds.foldl (fun n c => n * 10 + (c.toNat - 48)) 0

/-- Assemble a float value from sign, integer digits, fraction digits and a
decimal exponent: `±(intDs.fracDs) × 10^expo` as an exact fraction. -/
def pyFloatOfParts (negative : Bool) (intDs fracDs : List Char) (expo : Int) : PyFloat :=
  let mant : Int := Int.ofNat (natOfDigits (intDs ++ fracDs))
  let mant : Int := if negative then -mant else mant
  match expo - Int.ofNat fracDs.length with
  | Int.ofNat k => ⟨mant * Int.ofNat (10 ^ k), 1⟩
  | Int.negSucc k => ⟨mant, 10 ^ (k + 1)⟩

/-- Optional exponent part `e[+|-]digits`; yields exponent 0 when absent. -/
def parseExpPart (s : List Char) : Option (Int × List Char) :=
  match s with
  | [] => some (0, [])
  | c :: rest =>
    if c = 'e' || c = 'E' then
      match rest with
      | '+' :: rest2 =>
        let (ds, r) := takeDigits rest2
        if ds = [] then none else some (Int.ofNat (natOfDigits ds), r)
      | '-' :: rest2 =>
        let (ds, r) := takeDigits rest2
        if ds = [] then none else some (-Int.ofNat (natOfDigits ds), r)
      | _ =>
        let (ds, r) := takeDigits rest
        if ds = [] then none else some (Int.ofNat (natOfDigits ds), r)
    else some (0, c :: rest)

/-- JSON integer part: `0` alone or a nonzero digit followed by digits. -/
def parseIntPart (s : List Char) : Option (List Char × List Char) :=
  match s with
  | '0' :: rest => some (['0'], rest)
  | c :: rest =>
    if c.isDigit then
      let (ds, r) := takeDigits rest
      some (c :: ds, r)
    else none
  | [] => none

/-- JSON fraction part: `.digits` or nothing. -/
def parseFracPart (s : List Char) : Option (List Char × List Char) :=
  match s with
  | '.' :: rest =>
    let (ds, r) := takeDigits rest
    if ds = [] then none else some (ds, r)
  | _ => some ([], s)

/-- A JSON numeral after an optional leading minus sign. -/
def parseJsonNumCore (negative : Bool) (s : List Char) : Option (PyFloat × List Char) :=
  match parseIntPart s with
  | none => none
  | some (intDs, r1) =>
    match parseFracPart r1 with
    | none => none
    | some (fracDs, r2) =>
      match parseExpPart r2 with
      | none => none
      | some (expo, r3) => some (pyFloatOfParts negative intDs fracDs expo, r3)

/-- A JSON numeral. -/
def parseJsonNum (s : List Char) : Option (PyFloat × List Char) :=
  match s with
  | '-' :: rest => parseJsonNumCore true rest
  | _ => parseJsonNumCore false s

mutual

/-- One JSON value, fuel-bounded recursive descent. -/
def parseVal : Nat → List Char → Option (Json × List Char)
  | 0, _ => none
  | fuel + 1, s =>
    match skipWs s with
    | [] => none
    | c :: rest =>
      if c = lbraceChar then
        match skipWs rest with
        | c2 :: rest2 =>
          if c2 = rbraceChar then some (Json.obj [], rest2)
          else
            match parseFields fuel (c2 :: rest2) with
            | some (fs, r) => some (Json.obj fs, r)
            | none => none
        | [] => none
      else if c = '[' then
        match skipWs rest with
        | c2 :: rest2 =>
          if c2 = ']' then some (Json.arr [], rest2)
          else
            match parseElems fuel (c2 :: rest2) with
            | some (vs, r) => some (Json.arr vs, r)
            | none => none
        | [] => none
      else if c = '"' then
        match parseStringBody rest with
        | some (cs, r) => some (Json.str (String.mk cs), r)
        | none => none
      else if c = 't' then
        match rest with
        | 'r' :: 'u' :: 'e' :: r => some (Json.bool true, r)
        | _ => none
      else if c = 'f' then
        match rest with
        | 'a' :: 'l' :: 's' :: 'e' :: r => some (Json.bool false, r)
        | _ => none
      else if c = 'n' then
        match rest with
        | 'u' :: 'l' :: 'l' :: r => some (Json.null, r)
        | _ => none
      else if c = '-' || c.isDigit then
        match parseJsonNum (c :: rest) with
        | some (x, r) => some (Json.num x, r)
        | none => none
      else none

/-- The elements of a nonempty JSON array, up to and including `]`. -/
def parseElems : Nat → List Char → Option (List Json × List Char)
  | 0, _ => none
  | fuel + 1, s =>
    match parseVal fuel s with
    | none => none
    | some (v, r) =>
      match skipWs r with
      | c :: r2 =>
        if c = ',' then
          match parseElems fuel r2 with
          | some (vs, r3) => some (v :: vs, r3)
          | none => none
        else if c = ']' then some ([v], r2)
        else none
      | [] => none

/-- The members of a nonempty JSON object, up to and including the closing
brace. -/
def parseFields : Nat → List Char → Option (List (String × Json) × List Char)
  | 0, _ => none
  | fuel + 1, s =>
    match skipWs s with
    | '"' :: rest =>
      match parseStringBody rest with
      | none => none
      | some (kcs, r1) =>
        match skipWs r1 with
        | ':' :: r2 =>
          match parseVal fuel r2 with
          | none => none
          | some (v, r3) =>
            match skipWs r3 with
            | c :: r4 =>
              if c = ',' then
                match parseFields fuel r4 with
                | some (fs, r5) => some ((String.mk kcs, v) :: fs, r5)
                | none => none
              else if c = rbraceChar then some ([(String.mk kcs, v)], r4)
              else none
            | [] => none
        | _ => none
    | _ => none

end

/-- Model of `json.loads`: decode one JSON document with nothing but
whitespace around it.  `NaN`/`Infinity` extensions are not modelled; no
claim exercises them. -/
def jsonDecode (s : String) : Option Json :=
  match parseVal (s.length + 1) s.data with
  | some (v, rest) => if skipWs rest = [] then some v else none
  | none => none

/-- Python `str.find`: index of the first occurrence or `-1`. -/
def pyFindAux : List Char → Char → Nat → Int
  | [], _, _ => -1
  | c :: rest, t, i => if c = t then Int.ofNat i else pyFindAux rest t (i + 1)

/-- Python `content.find(t)`. -/
def pyFind (s : String) (t : Char) : Int := pyFindAux s.data t 0

/-- Python `str.rfind`: index of the last occurrence or `-1`, computed by a
left-to-right scan that keeps the latest hit. -/
def pyRfindAux : List Char → Char → Nat → Int → Int
  | [], _, _, acc => acc
  | c :: rest, t, i, acc => pyRfindAux rest t (i + 1) (if c = t then Int.ofNat i else acc)

/-- Python `content.rfind(t)`. -/
def pyRfind (s : String) (t : Char) : Int := pyRfindAux s.data t 0 (-1)

/-- Python slice `s[a:b]` for a nonnegative start index. -/
def pySlice (s : String) (a b : Int) : String :=
  String.mk ((s.data.drop a.toNat).take (b - a).toNat)

/-- The JSON-extraction step of `OpenAIClient._parse_response`:
`json_start` is the index of the first opening brace via `content.find`,
`json_end` is the index after the last closing brace via `content.rfind`,
guarded by `json_start != -1 and json_end > json_start`; on success the
slice `content[json_start:json_end]` is handed to `json.loads`. -/
def extractJsonStr (content : String) : Option String :=
  let json_start := pyFind content lbraceChar
  let json_end := pyRfind content rbraceChar + 1
  if json_start ≠ -1 ∧ json_end > json_start then
    some (pySlice content json_start json_end)
  else none

/-- Python `float(str)`: optional surrounding whitespace, an optional sign,
digits with an optional decimal point (at least one digit overall) and an
optional exponent.  The `inf`/`nan` spellings and digit underscores are not
modelled; no claim exercises them. -/
def pyFloatOfString (s : String) : Option PyFloat :=
  let cs := skipWs s.data
  let signAndRest : Bool × List Char :=
    match cs with
    | '+' :: r => (false, r)
    | '-' :: r => (true, r)
    | _ => (false, cs)
  let (d1, r1) := takeDigits signAndRest.2
  let fracAndRest : List Char × List Char :=
    match r1 with
    | '.' :: rr => takeDigits rr
    | _ => ([], r1)
  if d1 = [] ∧ fracAndRest.1 = [] then none
  else
    match parseExpPart fracAndRest.2 with
    | none => none
    | some (expo, r3) =>
      if skipWs r3 = [] then
        some (pyFloatOfParts signAndRest.1 d1 fracAndRest.1 expo)
      else none

/-- Classification of an exception raised while mapping decoded JSON to an
`Explanation`: `caught` stands for the classes in the
`except (json.JSONDecodeError, KeyError, ValueError)` clause of
`_parse_response` (the pydantic ValidationError subclasses ValueError), and
`uncaught msg` for any other exception, which escapes `_parse_response` and
is absorbed only by the blanket handler in `generate_explanation`. -/
inductive PErr where
  | caught : PErr
  | uncaught (msg : String) : PErr

/-- Python `float(x)` on a decoded JSON value: numbers pass through, bools
are 1.0/0.0, numeric strings are parsed (a non-numeric string raises
ValueError, which `_parse_response` catches), and `None`/lists/dicts raise
TypeError, which `_parse_response` does not catch. -/
def pyFloatCoerce : Json → Except PErr PyFloat
  | Json.num x => Except.ok x
  | Json.bool b => Except.ok (if b then ⟨1, 1⟩ else ⟨0, 1⟩)
  | Json.str s =>
    match pyFloatOfString s with
    | some x => Except.ok x
    | none => Except.error PErr.caught
  | Json.null => Except.error (PErr.uncaught "float argument must be a string or a real number, not NoneType")
  | Json.arr _ => Except.error (PErr.uncaught "float argument must be a string or a real number, not list")
  | Json.obj _ => Except.error (PErr.uncaught "float argument must be a string or a real number, not dict")

/-- Model of `data.get(key, dflt)` followed by pydantic validation of a required
`str` field: a missing key takes the Python-side default, a JSON string
passes, anything else fails validation (ValidationError, a ValueError). -/
def pyStrField (v : Option Json) (dflt : String) : Except PErr String :=
  match v with
  | none => Except.ok dflt
  | some (Json.str s) => Except.ok s
  | some _ => Except.error PErr.caught

/-- Model of `data.get(key)` followed by pydantic validation of an `Optional[str]`
field. -/
def pyOptStrField (v : Option Json) : Except PErr (Option String) :=
  match v with
  | none => Except.ok none
  | some Json.null => Except.ok none
  | some (Json.str s) => Except.ok (some s)
  | some _ => Except.error PErr.caught

/-- Pydantic validation of the items of a `List[str]` field. -/
def pyStrListItems : List Json → Except PErr (List String)
  | [] => Except.ok []
  | Json.str s :: rest =>
    match pyStrListItems rest with
    | Except.ok l => Except.ok (s :: l)
    | Except.error e => Except.error e
  | _ :: _ => Except.error PErr.caught

/-- Model of `data.get(key)` followed by pydantic validation of an
`Optional[List[str]]` field. -/
def pyOptStrListField (v : Option Json) : Except PErr (Option (List String)) :=
  match v with
  | none => Except.ok none
  | some Json.null => Except.ok none
  | some (Json.arr xs) =>
    match pyStrListItems xs with
    | Except.ok l => Except.ok (some l)
    | Except.error e => Except.error e
  | some _ => Except.error PErr.caught

/-- Model of `for fix_data in data.get("fix_suggestions", [])`: a missing key yields
the Python-side default `[]`; a JSON array yields its elements; an empty
string or empty object iterates zero times; a nonempty string or object
iterates over items without `.get` (AttributeError, uncaught); `None`,
numbers and bools are not iterable (TypeError, uncaught). -/
def fixIterable : Option Json → Except PErr (List Json)
  | none => Except.ok []
  | some (Json.arr xs) => Except.ok xs
  | some (Json.str s) =>
    if s = "" then Except.ok []
    else Except.error (PErr.uncaught "str object has no attribute get")
  | some (Json.obj []) => Except.ok []
  | some (Json.obj (_ :: _)) => Except.error (PErr.uncaught "str object has no attribute get")
  | some _ => Except.error (PErr.uncaught "object is not iterable")

/-- The loop body of `_parse_response` for one `fix_data` element:
`float(fix_data.get("confidence", 0.5))` is evaluated while the argument
list is built, then pydantic validates the `FixSuggestion` (with the
`[0,1]` range check on confidence); a non-dict element raises
AttributeError at `fix_data.get`, which `_parse_response` does not catch. -/
def buildFix : Json → Except PErr FixSuggestion
  | Json.obj fs =>
    match pyFloatCoerce ((objGet fs "confidence").getD (Json.num ⟨5, 10⟩)) with
    | Except.error e => Except.error e
    | Except.ok conf =>
      match pyStrField (objGet fs "description") "" with
      | Except.error e => Except.error e
      | Except.ok desc =>
        match pyOptStrField (objGet fs "command") with
        | Except.error e => Except.error e
        | Except.ok cmd =>
          match pyStrField (objGet fs "explanation") "" with
          | Except.error e => Except.error e
          | Except.ok expl =>
            if PyFloat.inUnitRange conf then
              Except.ok ⟨desc, cmd, expl, conf⟩
            else Except.error PErr.caught
  | _ => Except.error (PErr.uncaught "object has no attribute get")

/-- The `fix_suggestions` loop of `_parse_response`, first failure wins. -/
def buildFixList : List Json → Except PErr (List FixSuggestion)
  | [] => Except.ok []
  | j :: rest =>
    match buildFix j with
    | Except.error e => Except.error e
    | Except.ok fx =>
      match buildFixList rest with
      | Except.error e => Except.error e
      | Except.ok fxs => Except.ok (fx :: fxs)

/-- The mapping step of `_parse_response` on the decoded JSON value: the
fix-suggestion loop runs first, then `float(data.get("confidence", 0.5))`
is evaluated while the `Explanation(...)` argument list is built, then
pydantic validates the remaining fields and the confidence range. -/
def buildExplanation : Json → Except PErr Explanation
  | Json.obj fs =>
    match fixIterable (objGet fs "fix_suggestions") with
    | Except.error e => Except.error e
    | Except.ok items =>
      match buildFixList items with
      | Except.error e => Except.error e
      | Except.ok fixes =>
        match pyFloatCoerce ((objGet fs "confidence").getD (Json.num ⟨5, 10⟩)) with
        | Except.error e => Except.error e
        | Except.ok conf =>
          match pyStrField (objGet fs "summary") "Error analysis" with
          | Except.error e => Except.error e
          | Except.ok summ =>
            match pyStrField (objGet fs "detailed_explanation") "" with
            | Except.error e => Except.error e
            | Except.ok det =>
              match pyStrField (objGet fs "root_cause") "" with
              | Except.error e => Except.error e
              | Except.ok root =>
                match pyOptStrListField (objGet fs "related_errors") with
                | Except.error e => Except.error e
                | Except.ok rel =>
                  match pyOptStrListField (objGet fs "prevention_tips") with
                  | Except.error e => Except.error e
                  | Except.ok prev =>
                    if PyFloat.inUnitRange conf then
                      Except.ok ⟨summ, det, root, fixes, conf, rel, prev⟩
                    else Except.error PErr.caught
  | _ => Except.error (PErr.uncaught "object has no attribute get")

/-- Model of `OpenAIClient._parse_response`.  `.ok` is a normal return (possibly the
fallback, when the extraction guard fails or a caught exception class was
raised); `.error msg` models an exception escaping `_parse_response`, to be
absorbed by the handler in `generate_explanation`. -/
def parse_response (content : String) (command_result : CommandResult) :
    Except String Explanation :=
  match extractJsonStr content with
  | none => Except.ok (create_fallback_explanation command_result content)
  | some s =>
    match jsonDecode s with
    | none => Except.ok (create_fallback_explanation command_result content)
    | some j =>
      match buildExplanation j with
      | Except.ok e => Except.ok e
      | Except.error PErr.caught =>
        Except.ok (create_fallback_explanation command_result content)
      | Except.error (PErr.uncaught msg) => Except.error msg

/-- Outcome of the `chat.completions.create` call plus the reply-content
access in `generate_explanation`: either a textual reply, or an exception
(transport error, timeout, auth failure, malformed reply object) whose
`str(e)` is `message`. -/
inductive NetworkOutcome where
  | reply (content : String) : NetworkOutcome
  | failure (message : String) : NetworkOutcome

/-- Model of `OpenAIClient.generate_explanation`: the whole request/parse body sits
in a `try` whose `except Exception as e` returns
`_create_fallback_explanation(command_result, str(e))`; the function is
total — no exception reaches its caller. -/
def generate_explanation (outcome : NetworkOutcome) (command_result : CommandResult) :
    Explanation :=
  match outcome with
  | NetworkOutcome.failure msg => create_fallback_explanation command_result msg
  | NetworkOutcome.reply content =>
    match parse_response content command_result with
    | Except.ok e => e
    | Except.error msg => create_fallback_explanation command_result msg

/-- The per-fix dict written by `_save_to_cache`. -/
structure FixData where
  description : String
  command : Option String
  explanation : String
  confidence : PyFloat
  deriving DecidableEq, Repr

/-- The `explanation` dict written by `_save_to_cache`. -/
structure ExpData where
  summary : String
  detailed_explanation : String
  root_cause : String
  fix_suggestions : List FixData
  confidence : PyFloat
  related_errors : Option (List String)
  prevention_tips : Option (List String)
  deriving DecidableEq, Repr

/-- One entry of `self.cache`: `timestamp` is `some t` when the stored
timestamp string parses with `datetime.fromisoformat` to the instant `t`
(integer seconds), and `none` when the key is missing or its string is
malformed, in which case `fromisoformat` raises ValueError. -/
structure CacheData where
  timestamp : Option Int
  explanation : ExpData
  deriving DecidableEq, Repr

/-- The mutable fields of `ExplanationService` relevant to the pipeline. -/
structure ServiceState where
  cache_enabled : Bool
  cache_ttl : Int
  cache : List (String × CacheData)
  deriving DecidableEq, Repr

/-- Dict lookup `self.cache[key]` / `key in self.cache` on the cache,
modelled as first-match lookup in an association list whose insert prepends
(observationally the dict overwrite semantics). -/
def cacheLookup : List (String × CacheData) → String → Option CacheData
  | [], _ => none
  | (k, v) :: rest, key => if k = key then some v else cacheLookup rest key

/-- Dict store `self.cache[key] = v` (last write wins under
`cacheLookup`). -/
def cacheInsert (c : List (String × CacheData)) (key : String) (v : CacheData) :
    List (String × CacheData) :=
  (key, v) :: c

/-- Lowercase hexadecimal digit. -/
def hexDigit (n : Nat) : Char :=
  if n < 10 then Char.ofNat (48 + n) else Char.ofNat (87 + n)

/-- A `\uXXXX` escape. -/
def uEscape (n : Nat) : List Char :=
  ['\\', 'u', hexDigit (n / 4096 % 16), hexDigit (n / 256 % 16),
   hexDigit (n / 16 % 16), hexDigit (n % 16)]

/-- Model of `json.dumps` rendering of one string character with the default
`ensure_ascii=True`. -/
def jsonDumpChar (c : Char) : List Char :=
  if c = '"' then ['\\', '"']
  else if c = '\\' then ['\\', '\\']
  else if c = Char.ofNat 10 then ['\\', 'n']
  else if c = Char.ofNat 9 then ['\\', 't']
  else if c = Char.ofNat 13 then ['\\', 'r']
  else if c = Char.ofNat 8 then ['\\', 'b']
  else if c = Char.ofNat 12 then ['\\', 'f']
  else if c.toNat < 32 then uEscape c.toNat
  else if c.toNat < 127 then [c]
  else if c.toNat < 65536 then uEscape c.toNat
  else
    uEscape (55296 + (c.toNat - 65536) / 1024) ++ uEscape (56320 + (c.toNat - 65536) % 1024)

/-- Model of `json.dumps` rendering of a string. -/
def jsonDumpString (s : String) : String :=
  String.mk ('"' :: s.data.foldr (fun c acc => jsonDumpChar c ++ acc) ['"'])

/-- The Python strict lexicographic string order by code point. -/
def strLtb : List Char → List Char → Bool
  | [], [] => false
  | [], _ :: _ => true
  | _ :: _, [] => false
  | a :: as, b :: bs =>
    if a.toNat < b.toNat then true
    else if b.toNat < a.toNat then false
    else strLtb as bs

/-- The Python `<=` on strings. -/
def strLeb (a b : String) : Bool := ! strLtb b.data a.data

/-- Insert one key/value pair into a list sorted by key. -/
def insertSortedPair (p : String × String) :
    List (String × String) → List (String × String)
  | [] => [p]
  | q :: rest => if strLeb p.1 q.1 then p :: q :: rest else q :: insertSortedPair p rest

/-- Sort serialized pairs by key — the `sort_keys=True` of `json.dumps`. -/
def sortPairs : List (String × String) → List (String × String)
  | [] => []
  | p :: rest => insertSortedPair p (sortPairs rest)

/-- Comma-space join, the default item separator of `json.dumps`. -/
def joinComma : List String → String
  | [] => ""
  | [x] => x
  | x :: y :: rest => x ++ ", " ++ joinComma (y :: rest)

/-- Stand-in for the Python builtin `hash` of the serialized key string.  The
CPython value is per-process seeded; the code relies only on `hash` being a
deterministic function of the string within one process, which any concrete
function models (the spec itself flags the cross-process instability). -/
def pyHash (s : String) : Int :=
  Int.ofNat (s.data.foldl (fun h c => (h * 131 + c.toNat) % 2305843009213693951) 7)

/-- Model of `ExplanationService._generate_cache_key`:
`str(hash(json.dumps(key_data, sort_keys=True)))` where `key_data` holds
exactly the command text, the stderr text and the exit code, in the literal
order of the source dict, serialized with keys sorted. -/
def generate_cache_key (command_result : CommandResult) : String :=
  let key_data : List (String × String) :=
    [("command", jsonDumpString command_result.command.text),
     ("stderr", jsonDumpString command_result.stderr),
     ("exit_code", toString command_result.exit_code)]
  let serialized : String :=
    String.singleton lbraceChar ++
    joinComma ((sortPairs key_data).map (fun p => jsonDumpString p.1 ++ ": " ++ p.2)) ++
    String.singleton rbraceChar
  toString (pyHash serialized)

/-- Model of `ExplanationService._is_cache_valid`.  The `if not cached_data` guard is
vacuous for a modelled entry (the dicts written by `_save_to_cache` are
never empty); `datetime.fromisoformat(cached_data.get("timestamp", ""))`
raises ValueError on a missing or malformed timestamp; otherwise validity
is `datetime.now() - cached_time < timedelta(seconds=self.cache_ttl)`. -/
def is_cache_valid (cache_ttl : Int) (now : Int) (cached_data : CacheData) :
    Except String Bool :=
  match cached_data.timestamp with
  | none => Except.error "Invalid isoformat string"
  | some t => Except.ok (decide (now - t < cache_ttl))

/-- Model of `FixSuggestion(**fix_data)` in `_load_from_cache`: pydantic re-validates
the confidence range. -/
def loadFix (fd : FixData) : Except String FixSuggestion :=
  if PyFloat.inUnitRange fd.confidence then
    Except.ok ⟨fd.description, fd.command, fd.explanation, fd.confidence⟩
  else Except.error "validation error for FixSuggestion"

/-- The fix-suggestion loop of `_load_from_cache`. -/
def loadFixList : List FixData → Except String (List FixSuggestion)
  | [] => Except.ok []
  | fd :: rest =>
    match loadFix fd with
    | Except.error e => Except.error e
    | Except.ok fx =>
      match loadFixList rest with
      | Except.error e => Except.error e
      | Except.ok fxs => Except.ok (fx :: fxs)

/-- Model of `ExplanationService._load_from_cache` on the entry field `explanation`
dict: rebuild the fixes, then the `Explanation` (pydantic re-validates the
confidence range); a validation failure raises out of the service. -/
def load_from_cache (explanation_data : ExpData) : Except String Explanation :=
  match loadFixList explanation_data.fix_suggestions with
  | Except.error e => Except.error e
  | Except.ok fixes =>
    if PyFloat.inUnitRange explanation_data.confidence then
      Except.ok ⟨explanation_data.summary, explanation_data.detailed_explanation,
                 explanation_data.root_cause, fixes, explanation_data.confidence,
                 explanation_data.related_errors, explanation_data.prevention_tips⟩
    else Except.error "validation error for Explanation"

/-- The `explanation` dict stored by `_save_to_cache` for an explanation. -/
def expDataOf (e : Explanation) : ExpData :=
  ⟨e.summary, e.detailed_explanation, e.root_cause,
   e.fix_suggestions.map (fun fx => ⟨fx.description, fx.command, fx.explanation, fx.confidence⟩),
   e.confidence, e.related_errors, e.prevention_tips⟩

/-- Model of `ExplanationService._save_to_cache`: store the explanation snapshot
under the key with the current instant as timestamp. -/
def save_to_cache (st : ServiceState) (now : Int) (cache_key : String)
    (explanation : Explanation) : ServiceState :=
  { st with cache := cacheInsert st.cache cache_key ⟨some now, expDataOf explanation⟩ }

/-- The cache-miss tail of `explain_command`: invoke the client, store when
caching is enabled, return.  The `Bool` records that the client ran. -/
def explainMiss (st : ServiceState) (now : Int)
    (client : CommandResult → Explanation) (command_result : CommandResult)
    (cache_key : String) : Except String (Explanation × Bool × ServiceState) :=
  let explanation := client command_result
  let st2 := if st.cache_enabled then save_to_cache st now cache_key explanation else st
  Except.ok (explanation, true, st2)

/-- Model of `ExplanationService.explain_command`, with the wall clock (`now`, read
by `_is_cache_valid` and `_save_to_cache`) and the underlying
`OpenAIClient.generate_explanation` (`client`, a total function per
`generate_explanation`) passed explicitly.  Returns the explanation, a flag
recording whether the AI client was invoked, and the updated state;
`.error` models an exception escaping `explain_command`, which can arise
only while reading a corrupted cache entry. -/
def explain_command (st : ServiceState) (now : Int)
    (client : CommandResult → Explanation) (command_result : CommandResult) :
    Except String (Explanation × Bool × ServiceState) :=
  let cache_key := generate_cache_key command_result
  match (if st.cache_enabled then cacheLookup st.cache cache_key else none) with
  | some cached_data =>
    match is_cache_valid st.cache_ttl now cached_data with
    | Except.error msg => Except.error msg
    | Except.ok true =>
      match load_from_cache cached_data.explanation with
      | Except.error msg => Except.error msg
      | Except.ok e => Except.ok (e, false, st)
    | Except.ok false => explainMiss st now client command_result cache_key
  | none => explainMiss st now client command_result cache_key

/-- The conjunction of the pydantic range validations carried by an
`Explanation` and its `FixSuggestion`s: every constructed explanation
satisfies it. -/
def expValid (e : Explanation) : Bool :=
  PyFloat.inUnitRange e.confidence &&
    e.fix_suggestions.all (fun fx => PyFloat.inUnitRange fx.confidence)

/-! Concrete sample inputs for the closed witness and counterexample
theorems. -/

/-- A failed `npm install`, as in Scenario A of the spec. -/
def npmCommand : Command :=
  ⟨"npm install missing-package", 0, none, none, some 1⟩

/-- The corresponding failure record. -/
def npmResult : CommandResult :=
  ⟨npmCommand, "", "npm ERR! code E404 404 Not Found", 1, none⟩

/-- The same failure observed in a different directory with different
stdout, shell and execution time. -/
def npmResultElsewhere : CommandResult :=
  ⟨⟨"npm install missing-package", 99, some "/tmp/project", some "zsh", some 1⟩,
   "some unrelated stdout", "npm ERR! code E404 404 Not Found", 1, some ⟨31, 10⟩⟩

/-- A client whose network call always times out: every reply is the
fallback built from the timeout message. -/
def timeoutClient : CommandResult → Explanation :=
  fun r => create_fallback_explanation r "Connection timed out"

/-- A second client, used to observe that a cache hit never invokes it. -/
def secondClient : CommandResult → Explanation :=
  fun r => create_fallback_explanation r "second call"

/-- An explanation seeded into cache states below. -/
def seedExp : Explanation := create_fallback_explanation npmResult "seed"

/-- A service state holding a valid entry for `npmResult`, written at
instant 10. -/
def hitState : ServiceState :=
  ⟨true, 3600, [(generate_cache_key npmResult, ⟨some 10, expDataOf seedExp⟩)]⟩

/-- The empty enabled-cache service state. -/
def emptyState : ServiceState := ⟨true, 3600, []⟩

/-- The state after a first miss for `npmResult` at instant 0 with the
timeout client. -/
def storedState : ServiceState :=
  save_to_cache emptyState 0 (generate_cache_key npmResult) (timeoutClient npmResult)

/-- A service state whose entry for `npmResult` has an unparsable
timestamp. -/
def corruptState : ServiceState :=
  ⟨true, 3600, [(generate_cache_key npmResult, ⟨none, expDataOf seedExp⟩)]⟩

/-- Two fix suggestions with equal maximal confidence. -/
def tieFixA : FixSuggestion := ⟨"first fix", none, "reason one", ⟨7, 10⟩⟩

/-- The later of the two tied suggestions. -/
def tieFixB : FixSuggestion := ⟨"second fix", some "cmd", "reason two", ⟨7, 10⟩⟩

/-- An explanation with a confidence tie among its fixes. -/
def tieExp : Explanation :=
  ⟨"tie", "tie detail", "tie cause", [tieFixA, tieFixB], ⟨5, 10⟩, none, none⟩

/-- A model reply wrapping a JSON object in prose. -/
def proseReply : String :=
  "Here is my analysis: \x7b\"summary\": \"Bad flag\", \"confidence\": 0.9\x7d hope that helps"

/-- The JSON slice of `proseReply` between its braces. -/
def proseSlice : String := "\x7b\"summary\": \"Bad flag\", \"confidence\": 0.9\x7d"

/-- The decoded value of `proseSlice`. -/
def proseJson : Json :=
  Json.obj [("summary", Json.str "Bad flag"), ("confidence", Json.num ⟨9, 10⟩)]

/-- The explanation `proseReply` parses to. -/
def proseExp : Explanation :=
  ⟨"Bad flag", "", "", [], ⟨9, 10⟩, none, none⟩

/-! Helper lemmas shared by the claim theorems. -/

/-- The fallback explanation passes every pydantic range validation. -/
theorem fallback_expValid (r : CommandResult) (msg : String) :
    expValid (create_fallback_explanation r msg) = true := rfl

/-- A validated confidence denotes a rational in the unit interval. -/
theorem inUnitRange_toRat (x : PyFloat) (h : PyFloat.inUnitRange x = true) :
    0 ≤ x.toRat ∧ x.toRat ≤ 1 := by
  unfold PyFloat.inUnitRange PyFloat.le at h
  simp only [Bool.and_eq_true, decide_eq_true_eq] at h
  obtain ⟨h0, h1⟩ := h
  simp only [Nat.cast_one, mul_one, zero_mul, one_mul] at h0 h1
  unfold PyFloat.toRat
  rcases Nat.eq_zero_or_pos x.den with hd | hd
  · simp [hd]
  · constructor
    · apply div_nonneg
      · exact_mod_cast h0
      · positivity
    · rw [div_le_one (by exact_mod_cast hd)]
      exact_mod_cast h1

/-! C1. -/

/-- C1: `generate_explanation` always returns an `Explanation` to its
caller (it is a total function of the network outcome); when the network
call raises, the result is exactly the `ResponseParser` fallback with the
raw exception message embedded in `detailed_explanation`; when the reply is
received but parsing raises an uncaught exception, the result is the
fallback built from that exception message. -/
theorem generate_explanation_never_raises :
    ∀ (outcome : NetworkOutcome) (r : CommandResult),
      (∃ e : Explanation, generate_explanation outcome r = e) ∧
      (∀ msg, outcome = NetworkOutcome.failure msg →
        generate_explanation outcome r = create_fallback_explanation r msg ∧
        (generate_explanation outcome r).detailed_explanation =
          "Raw AI response: " ++ msg) ∧
      (∀ content msg, outcome = NetworkOutcome.reply content →
        parse_response content r = Except.error msg →
        generate_explanation outcome r = create_fallback_explanation r msg) := by
  intro outcome r
  refine ⟨⟨_, rfl⟩, ?_, ?_⟩
  · rintro msg rfl
    exact ⟨rfl, rfl⟩
  · rintro content msg rfl hp
    simp only [generate_explanation, hp]

/-- Witness for C1 at a concrete timeout outcome. -/
theorem generate_explanation_never_raises_witness :
    generate_explanation (NetworkOutcome.failure "Connection timed out") npmResult =
      create_fallback_explanation npmResult "Connection timed out" :=
  ((generate_explanation_never_raises
      (NetworkOutcome.failure "Connection timed out") npmResult).2.1
    "Connection timed out" rfl).1

/-! C2. -/

/-- C2: every trigger of the fallback path — a reply whose brace extraction
fails, a reply whose extracted slice is not valid JSON, a decoded reply
whose mapping raises a caught exception class (e.g. a non-numeric
confidence string), a decoded reply whose mapping raises an uncaught
exception (e.g. `float(None)`), or a network failure — produces exactly the
fixed-shape fallback `Explanation`, with the raw reply text or exception
message embedded verbatim in `detailed_explanation`. -/
theorem fallback_explanation_fixed_shape :
    ∀ (r : CommandResult) (content msg : String),
      (generate_explanation (NetworkOutcome.failure msg) r =
        { summary := "Unable to generate detailed analysis"
          detailed_explanation := "Raw AI response: " ++ msg
          root_cause := "Analysis failed due to response parsing error"
          fix_suggestions :=
            [{ description := "Check the command syntax and try again"
               command := none
               explanation := "The command may have syntax errors or missing dependencies"
               confidence := ⟨3, 10⟩ }]
          confidence := ⟨2, 10⟩
          related_errors := some ["Command parsing error", "AI service unavailable"]
          prevention_tips :=
            some ["Verify command syntax", "Check dependencies",
                  "Try running with verbose flags"] }) ∧
      (extractJsonStr content = none →
        generate_explanation (NetworkOutcome.reply content) r =
          create_fallback_explanation r content) ∧
      (∀ s, extractJsonStr content = some s → jsonDecode s = none →
        generate_explanation (NetworkOutcome.reply content) r =
          create_fallback_explanation r content) ∧
      (∀ s j, extractJsonStr content = some s → jsonDecode s = some j →
        buildExplanation j = Except.error PErr.caught →
        generate_explanation (NetworkOutcome.reply content) r =
          create_fallback_explanation r content) ∧
      (∀ s j m, extractJsonStr content = some s → jsonDecode s = some j →
        buildExplanation j = Except.error (PErr.uncaught m) →
        generate_explanation (NetworkOutcome.reply content) r =
          create_fallback_explanation r m) ∧
      (∀ x, (create_fallback_explanation r x).detailed_explanation =
        "Raw AI response: " ++ x ∧
        (create_fallback_explanation r x).summary =
          "Unable to generate detailed analysis") := by
  intro r content msg
  refine ⟨rfl, ?_, ?_, ?_, ?_, fun x => ⟨rfl, rfl⟩⟩
  · intro hx
    simp only [generate_explanation, parse_response, hx]
  · intro s hx hj
    simp only [generate_explanation, parse_response, hx, hj]
  · intro s j hx hj hb
    simp only [generate_explanation, parse_response, hx, hj, hb]
  · intro s j m hx hj hb
    simp only [generate_explanation, parse_response, hx, hj, hb]

/-- Witness for C2 at a braceless reply. -/
theorem fallback_explanation_fixed_shape_witness :
    generate_explanation
        (NetworkOutcome.reply "The model replied with plain prose.") npmResult =
      create_fallback_explanation npmResult "The model replied with plain prose." :=
  (fallback_explanation_fixed_shape npmResult
    "The model replied with plain prose." "unused").2.1 rfl

/-- Inversion for a successful `buildFix` on a JSON object. -/
theorem buildFix_obj_ok (gs : List (String × Json)) (fx : FixSuggestion)
    (hb : buildFix (Json.obj gs) = Except.ok fx) :
    ∃ conf desc cmd expl,
      pyFloatCoerce ((objGet gs "confidence").getD (Json.num ⟨5, 10⟩)) = Except.ok conf ∧
      pyStrField (objGet gs "description") "" = Except.ok desc ∧
      pyOptStrField (objGet gs "command") = Except.ok cmd ∧
      pyStrField (objGet gs "explanation") "" = Except.ok expl ∧
      PyFloat.inUnitRange conf = true ∧
      fx = ⟨desc, cmd, expl, conf⟩ := by
  unfold buildFix at hb
  cases hc : pyFloatCoerce ((objGet gs "confidence").getD (Json.num ⟨5, 10⟩)) with
  | error err => simp [hc] at hb
  | ok conf =>
  simp only [hc] at hb
  cases hd : pyStrField (objGet gs "description") "" with
  | error err => simp [hd] at hb
  | ok desc =>
  simp only [hd] at hb
  cases hcmd : pyOptStrField (objGet gs "command") with
  | error err => simp [hcmd] at hb
  | ok cmd =>
  simp only [hcmd] at hb
  cases he : pyStrField (objGet gs "explanation") "" with
  | error err => simp [he] at hb
  | ok expl =>
  simp only [he] at hb
  by_cases hr : PyFloat.inUnitRange conf = true
  · rw [if_pos hr] at hb
    exact ⟨conf, desc, cmd, expl, rfl, rfl, rfl, rfl, hr, (Except.ok.inj hb).symm⟩
  · rw [if_neg hr] at hb
    exact Except.noConfusion hb

/-- A fix built by `_parse_response` passed the pydantic range check. -/
theorem buildFix_ok_range (j : Json) (fx : FixSuggestion)
    (hb : buildFix j = Except.ok fx) :
    PyFloat.inUnitRange fx.confidence = true := by
  cases j with
  | obj gs =>
    obtain ⟨conf, desc, cmd, expl, _, _, _, _, hr, hfx⟩ := buildFix_obj_ok gs fx hb
    rw [hfx]
    exact hr
  | null => simp [buildFix] at hb
  | bool b => simp [buildFix] at hb
  | num x => simp [buildFix] at hb
  | str s => simp [buildFix] at hb
  | arr xs => simp [buildFix] at hb

/-- Every fix produced by the `_parse_response` loop passed validation. -/
theorem buildFixList_ok_mem (items : List Json) (fixes : List FixSuggestion)
    (h : buildFixList items = Except.ok fixes) :
    ∀ fx ∈ fixes, PyFloat.inUnitRange fx.confidence = true := by
  induction items generalizing fixes with
  | nil =>
    unfold buildFixList at h
    have hn : ([] : List FixSuggestion) = fixes := Except.ok.inj h
    subst hn
    intro y hy
    exact absurd hy (List.not_mem_nil y)
  | cons j rest ih =>
    unfold buildFixList at h
    cases hf : buildFix j with
    | error err => simp [hf] at h
    | ok fx =>
    simp only [hf] at h
    cases hrest : buildFixList rest with
    | error err => simp [hrest] at h
    | ok fxs =>
    simp only [hrest] at h
    have hc : fx :: fxs = fixes := Except.ok.inj h
    subst hc
    intro y hy
    rcases List.mem_cons.mp hy with rfl | hy
    · exact buildFix_ok_range j y hf
    · exact ih fxs hrest y hy

/-- Inversion for a successful `buildExplanation` on a JSON object. -/
theorem buildExplanation_obj_ok (fs : List (String × Json)) (e : Explanation)
    (hb : buildExplanation (Json.obj fs) = Except.ok e) :
    ∃ items fixes conf summ det root rel prev,
      fixIterable (objGet fs "fix_suggestions") = Except.ok items ∧
      buildFixList items = Except.ok fixes ∧
      pyFloatCoerce ((objGet fs "confidence").getD (Json.num ⟨5, 10⟩)) = Except.ok conf ∧
      pyStrField (objGet fs "summary") "Error analysis" = Except.ok summ ∧
      pyStrField (objGet fs "detailed_explanation") "" = Except.ok det ∧
      pyStrField (objGet fs "root_cause") "" = Except.ok root ∧
      pyOptStrListField (objGet fs "related_errors") = Except.ok rel ∧
      pyOptStrListField (objGet fs "prevention_tips") = Except.ok prev ∧
      PyFloat.inUnitRange conf = true ∧
      e = ⟨summ, det, root, fixes, conf, rel, prev⟩ := by
  unfold buildExplanation at hb
  cases h1 : fixIterable (objGet fs "fix_suggestions") with
  | error err => simp [h1] at hb
  | ok items =>
  simp only [h1] at hb
  cases h2 : buildFixList items with
  | error err => simp [h2] at hb
  | ok fixes =>
  simp only [h2] at hb
  cases h3 : pyFloatCoerce ((objGet fs "confidence").getD (Json.num ⟨5, 10⟩)) with
  | error err => simp [h3] at hb
  | ok conf =>
  simp only [h3] at hb
  cases h4 : pyStrField (objGet fs "summary") "Error analysis" with
  | error err => simp [h4] at hb
  | ok summ =>
  simp only [h4] at hb
  cases h5 : pyStrField (objGet fs "detailed_explanation") "" with
  | error err => simp [h5] at hb
  | ok det =>
  simp only [h5] at hb
  cases h6 : pyStrField (objGet fs "root_cause") "" with
  | error err => simp [h6] at hb
  | ok root =>
  simp only [h6] at hb
  cases h7 : pyOptStrListField (objGet fs "related_errors") with
  | error err => simp [h7] at hb
  | ok rel =>
  simp only [h7] at hb
  cases h8 : pyOptStrListField (objGet fs "prevention_tips") with
  | error err => simp [h8] at hb
  | ok prev =>
  simp only [h8] at hb
  by_cases hr : PyFloat.inUnitRange conf = true
  · rw [if_pos hr] at hb
    exact ⟨items, fixes, conf, summ, det, root, rel, prev,
           rfl, h2, rfl, rfl, rfl, rfl, rfl, rfl, hr, (Except.ok.inj hb).symm⟩
  · rw [if_neg hr] at hb
    exact Except.noConfusion hb

/-- An explanation built from decoded JSON passed every validation. -/
theorem buildExplanation_ok_valid (j : Json) (e : Explanation)
    (hb : buildExplanation j = Except.ok e) : expValid e = true := by
  cases j with
  | obj fs =>
    obtain ⟨items, fixes, conf, summ, det, root, rel, prev,
            h1, h2, h3, h4, h5, h6, h7, h8, hr, he⟩ :=
      buildExplanation_obj_ok fs e hb
    subst he
    simp only [expValid, Bool.and_eq_true, List.all_eq_true]
    exact ⟨hr, fun fx hfx => buildFixList_ok_mem items fixes h2 fx hfx⟩
  | null => simp [buildExplanation] at hb
  | bool b => simp [buildExplanation] at hb
  | num x => simp [buildExplanation] at hb
  | str s => simp [buildExplanation] at hb
  | arr xs => simp [buildExplanation] at hb

/-- A normal return of `_parse_response` is either the fallback or an
explanation built from successfully decoded JSON. -/
theorem parse_response_ok_cases (content : String) (r : CommandResult)
    (e : Explanation) (h : parse_response content r = Except.ok e) :
    e = create_fallback_explanation r content ∨
      ∃ j, buildExplanation j = Except.ok e := by
  unfold parse_response at h
  cases hx : extractJsonStr content with
  | none =>
    simp only [hx] at h
    exact Or.inl (Except.ok.inj h).symm
  | some s =>
  simp only [hx] at h
  cases hj : jsonDecode s with
  | none =>
    simp only [hj] at h
    exact Or.inl (Except.ok.inj h).symm
  | some j =>
  simp only [hj] at h
  cases hbe : buildExplanation j with
  | ok e2 =>
    simp only [hbe] at h
    exact Or.inr ⟨j, by rw [hbe, Except.ok.inj h]⟩
  | error pe =>
    cases pe with
    | caught =>
      simp only [hbe] at h
      exact Or.inl (Except.ok.inj h).symm
    | uncaught m =>
      simp only [hbe] at h
      exact Except.noConfusion h

/-! C3. -/

/-- C3: when the reply contains a well-formed JSON object between its first
opening brace and last closing brace (prose around it allowed), the parser
decodes exactly that slice and, if the mapping succeeds, returns the built
explanation, whose fields equal the decoded values with the documented
defaults for omitted fields (`summary` ← "Error analysis",
`detailed_explanation`/`root_cause` ← "", per-fix `description`/
`explanation` ← "", `command` ← absent, confidences ← 0.5, the optional
lists ← absent); when no opening brace exists or the last closing brace is
not after the first opening brace, the fallback is returned instead. -/
theorem parse_response_success_shape :
    (∀ content : String,
      (pyFind content lbraceChar = -1 ∨
        ¬ pyRfind content rbraceChar + 1 > pyFind content lbraceChar) →
      extractJsonStr content = none) ∧
    (∀ (content : String) (r : CommandResult), extractJsonStr content = none →
      parse_response content r = Except.ok (create_fallback_explanation r content)) ∧
    (∀ (content : String) (r : CommandResult) (s : String) (j : Json) (e : Explanation),
      extractJsonStr content = some s → jsonDecode s = some j →
      buildExplanation j = Except.ok e → parse_response content r = Except.ok e) ∧
    (∀ (content : String) (a b : Int),
      pyFind content lbraceChar = a → pyRfind content rbraceChar = b →
      a ≠ -1 → b + 1 > a →
      extractJsonStr content = some (pySlice content a (b + 1))) ∧
    (∀ fs e, buildExplanation (Json.obj fs) = Except.ok e →
      (objGet fs "summary" = none → e.summary = "Error analysis") ∧
      (∀ v, objGet fs "summary" = some (Json.str v) → e.summary = v) ∧
      (objGet fs "detailed_explanation" = none → e.detailed_explanation = "") ∧
      (∀ v, objGet fs "detailed_explanation" = some (Json.str v) →
        e.detailed_explanation = v) ∧
      (objGet fs "root_cause" = none → e.root_cause = "") ∧
      (∀ v, objGet fs "root_cause" = some (Json.str v) → e.root_cause = v) ∧
      (objGet fs "confidence" = none → e.confidence = ⟨5, 10⟩) ∧
      (∀ q, objGet fs "confidence" = some (Json.num q) → e.confidence = q) ∧
      (objGet fs "related_errors" = none → e.related_errors = none) ∧
      (objGet fs "prevention_tips" = none → e.prevention_tips = none) ∧
      (objGet fs "fix_suggestions" = none → e.fix_suggestions = [])) ∧
    (∀ gs fx, buildFix (Json.obj gs) = Except.ok fx →
      (objGet gs "description" = none → fx.description = "") ∧
      (∀ v, objGet gs "description" = some (Json.str v) → fx.description = v) ∧
      (objGet gs "command" = none → fx.command = none) ∧
      (∀ v, objGet gs "command" = some (Json.str v) → fx.command = some v) ∧
      (objGet gs "explanation" = none → fx.explanation = "") ∧
      (∀ v, objGet gs "explanation" = some (Json.str v) → fx.explanation = v) ∧
      (objGet gs "confidence" = none → fx.confidence = ⟨5, 10⟩) ∧
      (∀ q, objGet gs "confidence" = some (Json.num q) → fx.confidence = q)) := by
  refine ⟨?_, ?_, ?_, ?_, ?_, ?_⟩
  · intro content h
    simp only [extractJsonStr]
    rw [if_neg]
    rintro ⟨h1, h2⟩
    rcases h with h' | h'
    · exact h1 h'
    · exact h' h2
  · intro content r hx
    simp only [parse_response, hx]
  · intro content r s j e hx hj hbe
    simp only [parse_response, hx, hj, hbe]
  · intro content a b ha hb h1 h2
    subst ha
    subst hb
    simp only [extractJsonStr]
    rw [if_pos ⟨h1, h2⟩]
  · intro fs e hb
    obtain ⟨items, fixes, conf, summ, det, root, rel, prev,
            h1, h2, h3, h4, h5, h6, h7, h8, hr, he⟩ :=
      buildExplanation_obj_ok fs e hb
    subst he
    refine ⟨?_, ?_, ?_, ?_, ?_, ?_, ?_, ?_, ?_, ?_, ?_⟩
    · intro hs
      rw [hs] at h4
      exact (Except.ok.inj h4).symm
    · intro v hs
      rw [hs] at h4
      exact (Except.ok.inj h4).symm
    · intro hs
      rw [hs] at h5
      exact (Except.ok.inj h5).symm
    · intro v hs
      rw [hs] at h5
      exact (Except.ok.inj h5).symm
    · intro hs
      rw [hs] at h6
      exact (Except.ok.inj h6).symm
    · intro v hs
      rw [hs] at h6
      exact (Except.ok.inj h6).symm
    · intro hs
      rw [hs] at h3
      exact (Except.ok.inj h3).symm
    · intro q hs
      rw [hs] at h3
      exact (Except.ok.inj h3).symm
    · intro hs
      rw [hs] at h7
      exact (Except.ok.inj h7).symm
    · intro hs
      rw [hs] at h8
      exact (Except.ok.inj h8).symm
    · intro hs
      rw [hs] at h1
      have hi : ([] : List Json) = items := Except.ok.inj h1
      rw [← hi] at h2
      exact (Except.ok.inj h2).symm
  · intro gs fx hb
    obtain ⟨conf, desc, cmd, expl, hc, hd, hcmd, he, hr, hfx⟩ :=
      buildFix_obj_ok gs fx hb
    subst hfx
    refine ⟨?_, ?_, ?_, ?_, ?_, ?_, ?_, ?_⟩
    · intro hs
      rw [hs] at hd
      exact (Except.ok.inj hd).symm
    · intro v hs
      rw [hs] at hd
      exact (Except.ok.inj hd).symm
    · intro hs
      rw [hs] at hcmd
      exact (Except.ok.inj hcmd).symm
    · intro v hs
      rw [hs] at hcmd
      exact (Except.ok.inj hcmd).symm
    · intro hs
      rw [hs] at he
      exact (Except.ok.inj he).symm
    · intro v hs
      rw [hs] at he
      exact (Except.ok.inj he).symm
    · intro hs
      rw [hs] at hc
      exact (Except.ok.inj hc).symm
    · intro q hs
      rw [hs] at hc
      exact (Except.ok.inj hc).symm

/-- Witness for C3: a prose-wrapped JSON reply parses to the decoded
explanation. -/
theorem parse_response_success_shape_witness :
    parse_response proseReply npmResult = Except.ok proseExp :=
  parse_response_success_shape.2.2.1 proseReply npmResult proseSlice proseJson
    proseExp rfl rfl rfl

/-! C5. -/

/-- C5: the derived cache key depends on exactly the command text, the
stderr text and the exit code — two records agreeing on those three fields
share the key whatever their directory, stdout, shell, timestamp or
execution time — and the serialization feeding the hash lists the three
fields in sorted key order. -/
theorem cache_key_determinism :
    (∀ r1 r2 : CommandResult,
      r1.command.text = r2.command.text →
      r1.stderr = r2.stderr →
      r1.exit_code = r2.exit_code →
      generate_cache_key r1 = generate_cache_key r2) ∧
    (∀ r : CommandResult,
      (sortPairs [("command", jsonDumpString r.command.text),
                  ("stderr", jsonDumpString r.stderr),
                  ("exit_code", toString r.exit_code)]).map Prod.fst =
        ["command", "exit_code", "stderr"]) := by
  constructor
  · intro r1 r2 h1 h2 h3
    unfold generate_cache_key
    rw [h1, h2, h3]
  · intro r
    rfl

/-- Witness for C5: the two npm failure records differ in directory,
stdout, shell, timestamp and execution time yet share the cache key. -/
theorem cache_key_determinism_witness :
    generate_cache_key npmResult = generate_cache_key npmResultElsewhere :=
  cache_key_determinism.1 npmResult npmResultElsewhere rfl rfl rfl

/-! C7. -/

/-- C7: client construction fails exactly when neither a caller-supplied
key nor the environment provides a truthy (non-`None`, nonempty) key; the
raised error always carries the fixed missing-credential message; and
explain-time (`generate_explanation`) is total, so no error — this one
included — occurs there. -/
theorem init_requires_api_key :
    ∀ a e : Option String,
      ((∃ msg, initClient a e = Except.error msg) ↔
        ((a = none ∨ a = some "") ∧ (e = none ∨ e = some ""))) ∧
      (∀ msg, initClient a e = Except.error msg →
        msg = "OpenAI API key is required. Set OPENAI_API_KEY environment variable.") ∧
      (∀ outcome r, ∃ exp, generate_explanation outcome r = exp) := by
  intro a e
  refine ⟨?_, ?_, fun outcome r => ⟨_, rfl⟩⟩
  · constructor
    · intro ⟨msg, hmsg⟩
      rcases a with _ | sa
      · rcases e with _ | se
        · exact ⟨Or.inl rfl, Or.inl rfl⟩
        · by_cases hse : se = ""
          · exact ⟨Or.inl rfl, Or.inr (by rw [hse])⟩
          · simp [initClient, pyTruthy, hse] at hmsg
      · by_cases hsa : sa = ""
        · subst hsa
          rcases e with _ | se
          · exact ⟨Or.inr rfl, Or.inl rfl⟩
          · by_cases hse : se = ""
            · exact ⟨Or.inr rfl, Or.inr (by rw [hse])⟩
            · simp [initClient, pyTruthy, hse] at hmsg
        · simp [initClient, pyTruthy, hsa] at hmsg
    · rintro ⟨ha, he⟩
      have hta : pyTruthy a = false := by
        rcases ha with rfl | rfl <;> simp [pyTruthy]
      rcases he with rfl | rfl
      · refine ⟨"OpenAI API key is required. Set OPENAI_API_KEY environment variable.", ?_⟩
        simp [initClient, hta]
      · refine ⟨"OpenAI API key is required. Set OPENAI_API_KEY environment variable.", ?_⟩
        simp [initClient, hta]
  · intro msg hmsg
    unfold initClient at hmsg
    rcases h : (if pyTruthy a = true then a else e) with _ | s
    · rw [h] at hmsg
      simp only [Except.error.injEq] at hmsg
      exact hmsg.symm
    · rw [h] at hmsg
      by_cases hs : s = ""
      · subst hs
        exact (Except.error.inj hmsg).symm
      · simp [hs] at hmsg

/-- Witness for C7: with no key anywhere, construction raises. -/
theorem init_requires_api_key_witness :
    ∃ msg, initClient none none = Except.error msg :=
  ((init_requires_api_key none none).1).mpr ⟨Or.inl rfl, Or.inl rfl⟩

/-! Cache lemmas. -/

/-- Every fix reloaded from cache passed the pydantic range check. -/
theorem loadFixList_ok_mem (fds : List FixData) (fixes : List FixSuggestion)
    (h : loadFixList fds = Except.ok fixes) :
    ∀ fx ∈ fixes, PyFloat.inUnitRange fx.confidence = true := by
  induction fds generalizing fixes with
  | nil =>
    unfold loadFixList at h
    have hn : ([] : List FixSuggestion) = fixes := Except.ok.inj h
    subst hn
    intro y hy
    exact absurd hy (List.not_mem_nil y)
  | cons fd rest ih =>
    unfold loadFixList loadFix at h
    by_cases hr : PyFloat.inUnitRange fd.confidence = true
    · rw [if_pos hr] at h
      cases hrest : loadFixList rest with
      | error err => simp [hrest] at h
      | ok fxs =>
        simp only [hrest] at h
        have hc : _ :: fxs = fixes := Except.ok.inj h
        subst hc
        intro y hy
        rcases List.mem_cons.mp hy with rfl | hy
        · exact hr
        · exact ih fxs hrest y hy
    · rw [if_neg hr] at h
      simp at h

/-- An explanation reloaded from cache passed every validation. -/
theorem load_ok_valid (ed : ExpData) (e : Explanation)
    (h : load_from_cache ed = Except.ok e) : expValid e = true := by
  unfold load_from_cache at h
  cases hf : loadFixList ed.fix_suggestions with
  | error err => simp [hf] at h
  | ok fixes =>
  simp only [hf] at h
  by_cases hr : PyFloat.inUnitRange ed.confidence = true
  · rw [if_pos hr] at h
    have hc := Except.ok.inj h
    subst hc
    simp only [expValid, Bool.and_eq_true, List.all_eq_true]
    exact ⟨hr, fun fx hfx => loadFixList_ok_mem ed.fix_suggestions fixes hf fx hfx⟩
  · rw [if_neg hr] at h
    simp at h

/-- Reloading the stored snapshots of validated fixes gives them back. -/
theorem loadFixList_map (fixes : List FixSuggestion)
    (h : ∀ fx ∈ fixes, PyFloat.inUnitRange fx.confidence = true) :
    loadFixList (fixes.map
        (fun fx => ⟨fx.description, fx.command, fx.explanation, fx.confidence⟩)) =
      Except.ok fixes := by
  induction fixes with
  | nil => rfl
  | cons fx rest ih =>
    have hfx : PyFloat.inUnitRange fx.confidence = true := h fx (by simp)
    have hrest := ih (fun y hy => h y (by simp [hy]))
    simp [loadFixList, loadFix, hfx, hrest]

/-- Cache round-trip: storing a validated explanation and reading the entry
back yields a value equal in every field. -/
theorem load_expDataOf (e : Explanation) (h : expValid e = true) :
    load_from_cache (expDataOf e) = Except.ok e := by
  simp only [expValid, Bool.and_eq_true, List.all_eq_true] at h
  obtain ⟨hc, hall⟩ := h
  simp only [load_from_cache, expDataOf]
  rw [loadFixList_map e.fix_suggestions hall]
  simp [hc]

/-- Every explanation `generate_explanation` returns is validated. -/
theorem generate_explanation_valid (outcome : NetworkOutcome) (r : CommandResult) :
    expValid (generate_explanation outcome r) = true := by
  cases outcome with
  | failure msg => exact fallback_expValid r msg
  | reply content =>
    cases hp : parse_response content r with
    | error msg =>
      simp only [generate_explanation, hp]
      exact fallback_expValid r msg
    | ok e =>
      simp only [generate_explanation, hp]
      rcases parse_response_ok_cases content r e hp with hfb | ⟨j, hbe⟩
      · rw [hfb]
        exact fallback_expValid r content
      · exact buildExplanation_ok_valid j e hbe

/-! C4. -/

/-- C4: with caching enabled, a cached entry written at instant `T` is
returned on lookup at any instant strictly before `T + ttl` without
invoking the client, while a lookup at or after `T + ttl` behaves as a miss
(the client runs and its result is stored); a lookup with no entry under
the key is likewise a miss. -/
theorem cache_ttl_boundary :
    (∀ (st : ServiceState) (now : Int) (client : CommandResult → Explanation)
       (r : CommandResult) (T : Int) (e : Explanation),
      st.cache_enabled = true →
      cacheLookup st.cache (generate_cache_key r) = some ⟨some T, expDataOf e⟩ →
      expValid e = true →
      (now - T < st.cache_ttl →
        explain_command st now client r = Except.ok (e, false, st)) ∧
      (st.cache_ttl ≤ now - T →
        explain_command st now client r =
          Except.ok (client r, true,
            save_to_cache st now (generate_cache_key r) (client r)))) ∧
    (∀ (st : ServiceState) (now : Int) (client : CommandResult → Explanation)
       (r : CommandResult),
      st.cache_enabled = true →
      cacheLookup st.cache (generate_cache_key r) = none →
      explain_command st now client r =
        Except.ok (client r, true,
          save_to_cache st now (generate_cache_key r) (client r))) := by
  constructor
  · intro st now client r T e hen hlook hval
    constructor
    · intro hlt
      have hd : decide (now - T < st.cache_ttl) = true := decide_eq_true hlt
      simp only [explain_command, hen, if_true, hlook, is_cache_valid, hd,
                 load_expDataOf e hval]
    · intro hge
      have hd : decide (now - T < st.cache_ttl) = false :=
        decide_eq_false (not_lt.mpr hge)
      simp only [explain_command, hen, if_true, hlook, is_cache_valid, hd,
                 explainMiss]
  · intro st now client r hen hlook
    simp only [explain_command, hen, if_true, hlook, explainMiss]

/-- Witness for C4: the seeded entry written at instant 10 with TTL 3600 is
returned at instant 20 without a client call. -/
theorem cache_ttl_boundary_witness :
    explain_command hitState 20 timeoutClient npmResult =
      Except.ok (seedExp, false, hitState) :=
  (cache_ttl_boundary.1 hitState 20 timeoutClient npmResult 10 seedExp rfl rfl
    (fallback_expValid npmResult "seed")).1 (by decide)

/-! C6. -/

/-- C6: with caching enabled, after a first `explain_command` call that
missed and stored its result, a second call deriving the same cache key
within the TTL returns an explanation equal in every field to the first
result — also when that result was the fallback — without invoking the AI
client again and without changing the state. -/
theorem cached_explanation_reused
    (st : ServiceState) (now1 now2 : Int)
    (client client2 : CommandResult → Explanation) (r r2 : CommandResult)
    (e : Explanation) (b : Bool) (st1 : ServiceState)
    (hen : st.cache_enabled = true)
    (hmiss : cacheLookup st.cache (generate_cache_key r) = none)
    (h1 : explain_command st now1 client r = Except.ok (e, b, st1))
    (hval : expValid e = true)
    (hkey : generate_cache_key r2 = generate_cache_key r)
    (httl : now2 - now1 < st.cache_ttl) :
    explain_command st1 now2 client2 r2 = Except.ok (e, false, st1) := by
  have hfirst : explain_command st now1 client r =
      Except.ok (client r, true,
        save_to_cache st now1 (generate_cache_key r) (client r)) := by
    simp only [explain_command, hen, if_true, hmiss, explainMiss]
  rw [hfirst] at h1
  have h2 := Except.ok.inj h1
  have he : e = client r := (congrArg Prod.fst h2).symm
  have hst : st1 = save_to_cache st now1 (generate_cache_key r) (client r) :=
    (congrArg (fun p => p.2.2) h2).symm
  subst he
  subst hst
  have hd : decide (now2 - now1 < st.cache_ttl) = true := decide_eq_true httl
  simp only [explain_command, hkey, save_to_cache, cacheInsert, cacheLookup,
             if_pos, hen, if_true, is_cache_valid, hd, if_true,
             load_expDataOf (client r) hval]

/-- Witness for C6: a second query at instant 7 returns the cached fallback
without invoking the second client. -/
theorem cached_explanation_reused_witness :
    explain_command storedState 7 secondClient npmResult =
      Except.ok (timeoutClient npmResult, false, storedState) :=
  cached_explanation_reused emptyState 0 7 timeoutClient secondClient npmResult
    npmResult (timeoutClient npmResult) true storedState rfl rfl rfl
    (fallback_expValid npmResult "Connection timed out") rfl (by decide)

/-! C9. -/

/-- C9: every explanation the pipeline hands to a caller — produced by
`generate_explanation` on any network outcome, or returned by
`explain_command` whether freshly generated, loaded from cache or the
fallback — carries an overall confidence in `[0,1]` and only fix
suggestions with confidences in `[0,1]`. -/
theorem pipeline_confidence_in_unit_interval :
    (∀ (outcome : NetworkOutcome) (r : CommandResult),
      expValid (generate_explanation outcome r) = true) ∧
    (∀ (st : ServiceState) (now : Int) (client : CommandResult → Explanation)
       (r : CommandResult) (e : Explanation) (b : Bool) (st' : ServiceState),
      (∀ x, expValid (client x) = true) →
      explain_command st now client r = Except.ok (e, b, st') →
      expValid e = true) ∧
    (∀ e : Explanation, expValid e = true →
      (0 ≤ e.confidence.toRat ∧ e.confidence.toRat ≤ 1) ∧
      ∀ fx ∈ e.fix_suggestions, 0 ≤ fx.confidence.toRat ∧ fx.confidence.toRat ≤ 1) := by
  refine ⟨generate_explanation_valid, ?_, ?_⟩
  · intro st now client r e b st' hcl h
    simp only [explain_command] at h
    cases hl : (if st.cache_enabled = true
        then cacheLookup st.cache (generate_cache_key r) else none) with
    | none =>
      rw [hl] at h
      simp only [explainMiss] at h
      have h2 := Except.ok.inj h
      have he : e = client r := (congrArg Prod.fst h2).symm
      rw [he]
      exact hcl r
    | some cd =>
      rw [hl] at h
      cases hv : is_cache_valid st.cache_ttl now cd with
      | error msg => simp [hv] at h
      | ok valid =>
        simp only [hv] at h
        cases valid with
        | true =>
          cases hload : load_from_cache cd.explanation with
          | error msg => simp [hload] at h
          | ok e2 =>
            simp only [hload] at h
            have h2 := Except.ok.inj h
            have he : e = e2 := (congrArg Prod.fst h2).symm
            rw [he]
            exact load_ok_valid cd.explanation e2 hload
        | false =>
          simp only [explainMiss] at h
          have h2 := Except.ok.inj h
          have he : e = client r := (congrArg Prod.fst h2).symm
          rw [he]
          exact hcl r
  · intro e h
    simp only [expValid, Bool.and_eq_true, List.all_eq_true] at h
    exact ⟨inUnitRange_toRat e.confidence h.1,
           fun fx hfx => inUnitRange_toRat fx.confidence (h.2 fx hfx)⟩

/-- Witness for C9: the explanation returned by a concrete disabled-cache
service call is validated. -/
theorem pipeline_confidence_in_unit_interval_witness :
    expValid (timeoutClient npmResult) = true :=
  pipeline_confidence_in_unit_interval.2.1 ⟨false, 0, []⟩ 0 timeoutClient
    npmResult (timeoutClient npmResult) true ⟨false, 0, []⟩
    (fun x => fallback_expValid x "Connection timed out") rfl

/-! C10. -/

/-- C10 as stated is false on the code: a cache entry whose timestamp
cannot be parsed makes `explain_command` raise (the `fromisoformat`
ValueError propagates) instead of treating the entry as a miss. -/
theorem corrupted_cache_entry_raises :
    explain_command corruptState 0 timeoutClient npmResult =
      Except.error "Invalid isoformat string" := rfl

/-- C10 amended: a lookup whose key is absent is a miss and surfaces no
error, but an entry that cannot be reconstituted is not absorbed as a miss:
a missing or malformed timestamp raises the `fromisoformat` ValueError to
the caller, and a within-TTL entry whose explanation data fails
reconstruction propagates that validation error likewise. -/
theorem corrupted_cache_read_propagates :
    (∀ (st : ServiceState) (now : Int) (client : CommandResult → Explanation)
       (r : CommandResult) (cd : CacheData),
      st.cache_enabled = true →
      cacheLookup st.cache (generate_cache_key r) = some cd →
      cd.timestamp = none →
      explain_command st now client r =
        Except.error "Invalid isoformat string") ∧
    (∀ (st : ServiceState) (now : Int) (client : CommandResult → Explanation)
       (r : CommandResult) (cd : CacheData) (T : Int) (msg : String),
      st.cache_enabled = true →
      cacheLookup st.cache (generate_cache_key r) = some cd →
      cd.timestamp = some T →
      now - T < st.cache_ttl →
      load_from_cache cd.explanation = Except.error msg →
      explain_command st now client r = Except.error msg) ∧
    (∀ (st : ServiceState) (now : Int) (client : CommandResult → Explanation)
       (r : CommandResult),
      cacheLookup st.cache (generate_cache_key r) = none →
      explain_command st now client r =
        explainMiss st now client r (generate_cache_key r)) := by
  refine ⟨?_, ?_, ?_⟩
  · intro st now client r cd hen hlook hts
    simp only [explain_command, hen, if_true, hlook, is_cache_valid, hts]
  · intro st now client r cd T msg hen hlook hts hlt hload
    simp only [explain_command, hen, if_true, hlook, is_cache_valid, hts,
               decide_eq_true hlt, hload]
  · intro st now client r hlook
    cases hen : st.cache_enabled with
    | false => simp [explain_command, hen]
    | true => simp only [explain_command, hen, if_true, hlook]

/-! C8. -/

/-- Strict comparison of floats with positive denominators agrees with the
comparison of their rational values. -/
theorem PyFloat.lt_iff_toRat (x y : PyFloat) (hx : 0 < x.den) (hy : 0 < y.den) :
    PyFloat.lt x y = true ↔ x.toRat < y.toRat := by
  unfold PyFloat.lt PyFloat.toRat
  rw [decide_eq_true_eq]
  rw [div_lt_div_iff₀ (by exact_mod_cast hx) (by exact_mod_cast hy)]
  constructor
  · intro h
    exact_mod_cast h
  · intro h
    exact_mod_cast h

/-- A call `max(..., key=...)` returns an element before which every element has a
strictly smaller key (hence the first of the maxima) and whose key no
element exceeds. -/
theorem pyMaxBy_spec (key : FixSuggestion → PyFloat) (x : FixSuggestion)
    (xs : List FixSuggestion)
    (hden : ∀ y ∈ x :: xs, 0 < (key y).den) :
    ∃ pre post,
      x :: xs = pre ++ pyMaxBy key x xs :: post ∧
      (∀ y ∈ x :: xs, (key y).toRat ≤ (key (pyMaxBy key x xs)).toRat) ∧
      (∀ y ∈ pre, (key y).toRat < (key (pyMaxBy key x xs)).toRat) := by
  induction xs generalizing x with
  | nil =>
    refine ⟨[], [], by simp [pyMaxBy], ?_, by simp⟩
    intro y hy
    rcases List.mem_singleton.mp hy with rfl
    simp [pyMaxBy]
  | cons z zs ih =>
    have hdx : 0 < (key x).den := hden x (by simp)
    have hdz : 0 < (key z).den := hden z (by simp)
    by_cases hxz : PyFloat.lt (key x) (key z) = true
    · have hstep : pyMaxBy key x (z :: zs) = pyMaxBy key z zs := by
        simp [pyMaxBy, hxz]
      have hlt : (key x).toRat < (key z).toRat :=
        (PyFloat.lt_iff_toRat (key x) (key z) hdx hdz).mp hxz
      obtain ⟨pre, post, heq, hmax, hpre⟩ :=
        ih z (fun y hy => by
          rcases List.mem_cons.mp hy with rfl | hy
          · exact hdz
          · exact hden y (by simp [hy]))
      refine ⟨x :: pre, post, ?_, ?_, ?_⟩
      · rw [hstep]
        simpa using heq
      · intro y hy
        rw [hstep]
        rcases List.mem_cons.mp hy with rfl | hy
        · exact le_of_lt (lt_of_lt_of_le hlt (hmax z (by simp)))
        · exact hmax y hy
      · intro y hy
        rw [hstep]
        rcases List.mem_cons.mp hy with rfl | hy
        · exact lt_of_lt_of_le hlt (hmax z (by simp))
        · exact hpre y hy
    · have hxz' : PyFloat.lt (key x) (key z) = false := by
        simpa using hxz
      have hstep : pyMaxBy key x (z :: zs) = pyMaxBy key x zs := by
        simp [pyMaxBy, hxz']
      have hzx : (key z).toRat ≤ (key x).toRat := by
        by_contra hc
        push_neg at hc
        have hlt := (PyFloat.lt_iff_toRat (key x) (key z) hdx hdz).mpr hc
        rw [hlt] at hxz'
        exact Bool.noConfusion hxz'
      obtain ⟨pre, post, heq, hmax, hpre⟩ :=
        ih x (fun y hy => by
          rcases List.mem_cons.mp hy with rfl | hy
          · exact hdx
          · exact hden y (by simp [hy]))
      cases pre with
      | nil =>
        simp only [List.nil_append] at heq
        obtain ⟨hm, hrest⟩ := List.cons.inj heq
        refine ⟨[], z :: zs, ?_, ?_, by simp⟩
        · rw [hstep, ← hm]
          rfl
        · intro y hy
          rw [hstep]
          rcases List.mem_cons.mp hy with rfl | hy
          · exact hmax y (by simp)
          · rcases List.mem_cons.mp hy with rfl | hy
            · exact le_trans hzx (hmax x (by simp))
            · exact hmax y (by simp [hy])
      | cons p pre' =>
        simp only [List.cons_append] at heq
        obtain ⟨hpx, hrest⟩ := List.cons.inj heq
        subst hpx
        refine ⟨x :: z :: pre', post, ?_, ?_, ?_⟩
        · rw [hstep]
          simp only [List.cons_append]
          rw [← hrest]
        · intro y hy
          rw [hstep]
          rcases List.mem_cons.mp hy with rfl | hy
          · exact hmax y (by simp)
          · rcases List.mem_cons.mp hy with rfl | hy
            · exact le_trans hzx (hmax x (by simp))
            · exact hmax y (by simp [hy])
        · intro y hy
          rw [hstep]
          rcases List.mem_cons.mp hy with rfl | hy
          · exact hpre y (by simp)
          · rcases List.mem_cons.mp hy with rfl | hy
            · exact lt_of_le_of_lt hzx (hpre x (by simp))
            · exact hpre y (by simp [hy])

/-- C8: `primary_fix` is `none` exactly on an empty suggestion list, and
otherwise returns the suggestion with maximal confidence, resolving ties to
the first such suggestion in list order: every suggestion before the
returned one is strictly less confident. -/
theorem primary_fix_first_max (e : Explanation)
    (hden : ∀ fx ∈ e.fix_suggestions, 0 < fx.confidence.den) :
    (e.fix_suggestions = [] → e.primary_fix = none) ∧
    (e.fix_suggestions ≠ [] →
      ∃ m pre post,
        e.primary_fix = some m ∧
        e.fix_suggestions = pre ++ m :: post ∧
        (∀ y ∈ e.fix_suggestions, y.confidence.toRat ≤ m.confidence.toRat) ∧
        (∀ y ∈ pre, y.confidence.toRat < m.confidence.toRat)) := by
  constructor
  · intro h
    simp [Explanation.primary_fix, h]
  · intro h
    cases hl : e.fix_suggestions with
    | nil => exact absurd hl h
    | cons x xs =>
      obtain ⟨pre, post, heq, hmax, hpre⟩ :=
        pyMaxBy_spec (fun f => f.confidence) x xs
          (fun y hy => hden y (by rw [hl]; exact hy))
      refine ⟨pyMaxBy (fun f => f.confidence) x xs, pre, post, ?_, ?_, ?_, ?_⟩
      · simp [Explanation.primary_fix, hl]
      · exact heq
      · exact hmax
      · exact hpre

/-- Witness for C8: on the tied pair the first suggestion is selected. -/
theorem primary_fix_first_max_witness :
    ∃ m pre post,
      tieExp.primary_fix = some m ∧
      tieExp.fix_suggestions = pre ++ m :: post ∧
      (∀ y ∈ tieExp.fix_suggestions, y.confidence.toRat ≤ m.confidence.toRat) ∧
      (∀ y ∈ pre, y.confidence.toRat < m.confidence.toRat) :=
  (primary_fix_first_max tieExp (by decide)).2 (by decide)

/-- Witness for the amended C10 at the concrete corrupted state. -/
theorem corrupted_cache_read_propagates_witness :
    explain_command corruptState 5 secondClient npmResult =
      Except.error "Invalid isoformat string" :=
  corrupted_cache_read_propagates.1 corruptState 5 secondClient npmResult
    ⟨none, expDataOf seedExp⟩ rfl rfl rfl

end DebugCli
